import Mathlib

/-!
Verification of the two merged-pull-request reporting pipelines in
`src/merged_prs/fetch_all_merged_prs.py` (REST pipeline) and
`src/merged_prs/fetch_specific_merged_prs.py` (GraphQL pipeline).

The HTTP layer is modelled by mock response sequences: a list of pages is
the sequence of responses the server would return for the successive
requests issued by the pagination loops.  Python's `list({...})`
(set-to-list conversion) has a process-dependent enumeration order (hash
randomisation), so every pipeline run is parameterised by an enumeration
function `σ : List String → List String`; a run of the real program
corresponds to some `σ` satisfying `validOrder σ` (its output enumerates
the distinct elements, in some order).
-/

/-- Python truthiness of an optional string: `None` and `""` are falsy
(`if not merged_at`, `all([token, ...])`). -/
def pyTruthy : Option String → Bool
  | none => false
  | some s => !(s == "")

/-- Models `", ".join(xs)`. -/
def joinComma (xs : List String) : String := String.intercalate ", " xs

/-- Predicate: `σ` is a possible behaviour of Python's `list({... set ...})`: it returns
the distinct elements of its input in some (process-dependent) order. -/
def validOrder (σ : List String → List String) : Prop :=
  ∀ xs : List String, (σ xs).Perm xs.dedup

/-- One concrete set-enumeration order (first-occurrence order). -/
def canonOrder (xs : List String) : List String := xs.dedup

/-- Another concrete set-enumeration order (reversed first-occurrence order),
as could be produced by a different hash seed. -/
def revOrder (xs : List String) : List String := xs.dedup.reverse

theorem canonOrder_valid : validOrder canonOrder := fun _ => List.Perm.refl _

theorem revOrder_valid : validOrder revOrder := fun xs => xs.dedup.reverse_perm

/-- Strict lexicographic comparison of char sequences by code point: the
semantics of Python's `<` on strings (and of Lean's `List.lt`). -/
def pyStrLtAux : List Char → List Char → Bool
  | [], [] => false
  | [], _ :: _ => true
  | _ :: _, [] => false
  | c :: s, d :: t => if c < d then true else if d < c then false else pyStrLtAux s t

/-- Python's `a < b` on strings. -/
def pyStrLt (a b : String) : Bool := pyStrLtAux a.data b.data

/-- Python's `a <= b` on strings. -/
def pyStrLe (a b : String) : Bool := !(pyStrLt b a)

/-- Python's `s[:10]`. -/
def pySlice10 (s : String) : String := ⟨s.data.take 10⟩

/-- Helper for `pySplitComma`: `acc` holds the chars of the current field
in reverse. -/
def splitCommaAux : List Char → List Char → List String
  | acc, [] => [⟨acc.reverse⟩]
  | acc, c :: rest =>
    if c == ',' then ⟨acc.reverse⟩ :: splitCommaAux [] rest
    else splitCommaAux (c :: acc) rest

/-- Python's `s.split(',')`; in particular `"".split(',') == [""]`. -/
def pySplitComma (s : String) : List String := splitCommaAux [] s.data

/-- Shell-style wildcard matching of a pattern (first argument) against a
name (second argument), as characters.  Models Python's `fnmatch.fnmatch`
on a case-sensitive platform for patterns built from literal characters,
`*` and `?` (the only forms the configuration uses); `*` matches any
sequence of characters, including path separators. -/
def globMatch : List Char → List Char → Bool
  | [], s => s.isEmpty
  | '*' :: ps, s => s.tails.any (fun t => globMatch ps t)
  | '?' :: ps, s =>
    match s with
    | [] => false
    | _ :: s => globMatch ps s
  | c :: ps, s =>
    match s with
    | [] => false
    | d :: s => c == d && globMatch ps s

/-- Models `fnmatch.fnmatch(name, pattern)`. -/
def fnmatch (name pattern : String) : Bool := globMatch pattern.data name.data

namespace FetchSpecificMergedPrs

/-- Models `matches_included_paths(filename, patterns)` from
`fetch_specific_merged_prs.py`. -/
def matches_included_paths (filename : String) (patterns : List String) : Bool :=
  patterns.any (fun pattern => fnmatch filename pattern)

/-- One node of the `reviews(states: APPROVED)` connection: `author { login }`,
`none` when the author is null (e.g. a deleted account). -/
structure GqlReview where
  author : Option String
deriving Repr, DecidableEq

/-- One pull-request node of the GraphQL response. -/
structure GqlPR where
  number : Nat
  title : String
  url : String
  author : Option String
  mergedAt : Option String
  mergedBy : Option String
  mergeCommit : Option String
  files : List String
  reviews : List GqlReview
deriving Repr, DecidableEq

/-- One page of the GraphQL response: `pageInfo.hasNextPage` and the
pull-request nodes (the cursor itself is opaque and irrelevant to a mock
response sequence). -/
structure GqlPage where
  hasNextPage : Bool
  nodes : List GqlPR
deriving Repr, DecidableEq

/-- The record dict appended to `merged_prs` (lines 136-146). -/
structure GqlRecord where
  url : String
  number : Nat
  title : String
  author : String
  merged_by : String
  merge_commit_sha : String
  merged_at : String
  approved_by : String
  files : String
deriving Repr, DecidableEq

/-- The iteration-order list of approver logins of the set comprehension
`{review["author"]["login"] for review in pr["reviews"]["nodes"] if review["author"]}`. -/
def approver_logins (pr : GqlPR) : List String :=
  pr.reviews.filterMap GqlReview.author

/-- The record built for a retained pull request (lines 134-146);
`σ` models `list({...})`. -/
def mkRecord (σ : List String → List String) (pr : GqlPR) : GqlRecord :=
  { url := pr.url
    number := pr.number
    title := pr.title
    author := pr.author.getD "N/A"
    merged_by := pr.mergedBy.getD "N/A"
    merge_commit_sha := pr.mergeCommit.getD "N/A"
    merged_at := pr.mergedAt.getD ""
    approved_by := joinComma (σ (approver_logins pr))
    files := joinComma pr.files }

/-- The per-page `for pr in pr_data["nodes"]` loop (lines 115-146): returns
the records retained from this page, in node order, together with
`older_pr_count`. -/
def procNodes (σ : List String → List String) (start_date end_date : String)
    (included_paths : List String) : List GqlPR → List GqlRecord × Nat
  | [] => ([], 0)
  | pr :: rest =>
    if pyTruthy pr.mergedAt then
      if pyStrLt (pySlice10 (pr.mergedAt.getD "")) start_date then
        ((procNodes σ start_date end_date included_paths rest).1,
         (procNodes σ start_date end_date included_paths rest).2 + 1)
      else if pyStrLt end_date (pySlice10 (pr.mergedAt.getD "")) then
        procNodes σ start_date end_date included_paths rest
      else if pr.files.any (fun f => matches_included_paths f included_paths) then
        (mkRecord σ pr :: (procNodes σ start_date end_date included_paths rest).1,
         (procNodes σ start_date end_date included_paths rest).2)
      else
        procNodes σ start_date end_date included_paths rest
    else
      procNodes σ start_date end_date included_paths rest

/-- Model of `fetch_merged_prs_graphql` (lines 50-154) run against a mock response
sequence: returns the accumulated records and the number of pages
requested.  The loop continues exactly when the page reports
`hasNextPage` and not every node was counted as older than `start_date`
(lines 112, 148-150). -/
def fetch_merged_prs_graphql (σ : List String → List String)
    (start_date end_date : String) (included_paths : List String) :
    List GqlPage → List GqlRecord × Nat
  | [] => ([], 0)
  | page :: rest =>
    if page.hasNextPage
        && !((procNodes σ start_date end_date included_paths page.nodes).2
              == page.nodes.length) then
      ((procNodes σ start_date end_date included_paths page.nodes).1
         ++ (fetch_merged_prs_graphql σ start_date end_date included_paths rest).1,
       (fetch_merged_prs_graphql σ start_date end_date included_paths rest).2 + 1)
    else
      ((procNodes σ start_date end_date included_paths page.nodes).1, 1)

end FetchSpecificMergedPrs

/-- The fixed CSV header row shared by both scripts. -/
def csvHeader : List String :=
  ["PR URL", "PR Number", "Title", "Author", "Merged By",
   "Merge Commit SHA", "Merged At", "Approved By", "Modified Files"]

/-- Observable outcome of one run: fatal exit, the informational
"no pull requests" message (no file written), or the rows of the written
CSV file (header first). -/
inductive RunOutcome where
  | fatal (msg : String)
  | noRecords
  | wroteCsv (rows : List (List String))
deriving Repr, DecidableEq

/-- Outcome of a run together with the number of list-page requests the
run issued. -/
structure RunResult where
  outcome : RunOutcome
  pagesRequested : Nat
deriving Repr, DecidableEq

namespace FetchSpecificMergedPrs

/-- The configuration values returned by `load_config` (lines 16-37). -/
structure Config where
  owner : String
  repo : String
  included_paths : List String
  start_date : String
  end_date : String
deriving Repr, DecidableEq

/-- Model of `load_config` (lines 16-37): the file is modelled as a partial map from
key to value.  `included_paths` falls back to `""` and is split on commas;
it is NOT part of the `all([...])` presence check. -/
def load_config (cfg : String → Option String) : Except String Config :=
  if pyTruthy (cfg "github_token") && pyTruthy (cfg "repo_owner")
      && pyTruthy (cfg "repo_name") && pyTruthy (cfg "start_date")
      && pyTruthy (cfg "end_date") then
    .ok { owner := (cfg "repo_owner").getD ""
          repo := (cfg "repo_name").getD ""
          included_paths := pySplitComma ((cfg "included_paths").getD "")
          start_date := (cfg "start_date").getD ""
          end_date := (cfg "end_date").getD "" }
  else
    .error "One or more required config fields are missing in config.properties"

/-- The CSV row written for one record (lines 166-177). -/
def csvRow (r : GqlRecord) : List String :=
  [r.url, toString r.number, r.title, r.author, r.merged_by,
   r.merge_commit_sha, r.merged_at, r.approved_by, r.files]

/-- Model of `write_to_csv` (lines 157-178): the rows of the produced file. -/
def write_to_csv (prs : List GqlRecord) : List (List String) :=
  csvHeader :: prs.map csvRow

/-- Model of `main` (lines 181-188) against a mock response sequence: load the
configuration (fatal exit before any request when it fails), fetch, then
either report no records or write the CSV. -/
def main (σ : List String → List String) (cfg : String → Option String)
    (pages : List GqlPage) : RunResult :=
  match load_config cfg with
  | .error msg => ⟨.fatal msg, 0⟩
  | .ok c =>
    let r := fetch_merged_prs_graphql σ c.start_date c.end_date c.included_paths pages
    if r.1.isEmpty then ⟨.noRecords, r.2⟩ else ⟨.wroteCsv (write_to_csv r.1), r.2⟩

end FetchSpecificMergedPrs

namespace FetchAllMergedPrs

/-- One item of the REST pull-request listing (the fields the script
reads); optional fields model `pr.get(..., default)`. -/
structure RestPR where
  number : Nat
  html_url : String
  title : Option String
  user_login : Option String
  merge_commit_sha : Option String
  merged_at : Option String
deriving Repr, DecidableEq

/-- One response of the paginated listing endpoint. -/
structure RestResp where
  status : Nat
  text : String
  body : List RestPR
deriving Repr, DecidableEq

/-- One review object of the `/reviews` endpoint. -/
structure RestReview where
  user_login : String
  state : Option String
deriving Repr, DecidableEq

/-- One file object of the `/files` endpoint. -/
structure RestFile where
  filename : String
deriving Repr, DecidableEq

/-- The per-number enrichment responses of the mock server; `.error ()`
models a non-200 status on that follow-up call. -/
structure Enrich where
  mergedByResp : Nat → Except Unit (Option String)
  reviewsResp : Nat → Except Unit (List RestReview)
  filesResp : Nat → Except Unit (List RestFile)

/-- The configuration values returned by `load_config` (lines 13-31). -/
structure Config where
  owner : String
  repo : String
deriving Repr, DecidableEq

/-- Model of `load_config` (lines 13-31). -/
def load_config (cfg : String → Option String) : Except String Config :=
  if pyTruthy (cfg "github_token") && pyTruthy (cfg "repo_owner")
      && pyTruthy (cfg "repo_name") then
    .ok { owner := (cfg "repo_owner").getD "", repo := (cfg "repo_name").getD "" }
  else
    .error "One or more required config fields are missing in config.properties"

/-- Model of `get_all_merged_pull_requests` (lines 38-65) against a mock response
sequence: pages are requested in order starting at page 1; a non-200
status is fatal, an empty body stops the loop, otherwise the items with a
truthy `merged_at` are appended in API order.  Returns the accumulated
items and the number of pages requested. -/
def get_all_merged_pull_requests : List RestResp → Except String (List RestPR) × Nat
  | [] => (.ok [], 0)
  | r :: rest =>
    if r.status == 200 then
      if r.body.isEmpty then (.ok [], 1)
      else
        match get_all_merged_pull_requests rest with
        | (.error msg, n) => (.error msg, n + 1)
        | (.ok tail, n) =>
          (.ok (r.body.filter (fun pr => pyTruthy pr.merged_at) ++ tail), n + 1)
    else
      (.error ("GitHub API error: " ++ toString r.status ++ " - " ++ r.text), 1)

/-- Model of `get_merged_by_user` (lines 67-75): "N/A" on request failure or a null
`merged_by`. -/
def get_merged_by_user (env : Enrich) (pr_number : Nat) : String :=
  match env.mergedByResp pr_number with
  | .error _ => "N/A"
  | .ok none => "N/A"
  | .ok (some login) => login

/-- Model of `get_approved_by` (lines 77-85): empty on request failure, otherwise
`list({review["user"]["login"] for review in reviews if review.get("state") == "APPROVED"})`,
with `σ` modelling the set enumeration. -/
def get_approved_by (σ : List String → List String) (env : Enrich)
    (pr_number : Nat) : List String :=
  match env.reviewsResp pr_number with
  | .error _ => []
  | .ok reviews =>
    σ ((reviews.filter (fun review => review.state == some "APPROVED")).map
        RestReview.user_login)

/-- Model of `get_modified_files` (lines 87-94): empty on request failure, otherwise
the filenames in API order (no deduplication). -/
def get_modified_files (env : Enrich) (pr_number : Nat) : List String :=
  match env.filesResp pr_number with
  | .error _ => []
  | .ok files => files.map RestFile.filename

/-- The CSV row written for one retained pull request (lines 106-122),
including the three enrichment lookups. -/
def csvRow (σ : List String → List String) (env : Enrich) (pr : RestPR) :
    List String :=
  [pr.html_url, toString pr.number, pr.title.getD "N/A", pr.user_login.getD "N/A",
   get_merged_by_user env pr.number, pr.merge_commit_sha.getD "N/A",
   pr.merged_at.getD "N/A", joinComma (get_approved_by σ env pr.number),
   joinComma (get_modified_files env pr.number)]

/-- Model of `write_to_csv` (lines 96-124): the rows of the produced file. -/
def write_to_csv (σ : List String → List String) (env : Enrich)
    (prs : List RestPR) : List (List String) :=
  csvHeader :: prs.map (csvRow σ env)

/-- Model of `main` (lines 126-134) against a mock response sequence. -/
def main (σ : List String → List String) (cfg : String → Option String)
    (pages : List RestResp) (env : Enrich) : RunResult :=
  match load_config cfg with
  | .error msg => ⟨.fatal msg, 0⟩
  | .ok _ =>
    match get_all_merged_pull_requests pages with
    | (.error msg, n) => ⟨.fatal msg, n⟩
    | (.ok prs, n) =>
      if prs.isEmpty then ⟨.noRecords, n⟩
      else ⟨.wroteCsv (write_to_csv σ env prs), n⟩

end FetchAllMergedPrs


namespace FetchSpecificMergedPrs

/-- A merged pull request used in concrete scenarios: merged inside the
window 2024-01-01 .. 2024-01-31, touching `src/main.go` and `README.md`,
approved by alice twice and by bob once. -/
def samplePr : GqlPR :=
  { number := 7
    title := "Add feature"
    url := "https://example.com/pr/7"
    author := some "carol"
    mergedAt := some "2024-01-15T10:00:00Z"
    mergedBy := some "dave"
    mergeCommit := some "abc123"
    files := ["src/main.go", "README.md"]
    reviews := [⟨some "alice"⟩, ⟨some "alice"⟩, ⟨some "bob"⟩] }

/-- A pull request merged just before the window (2023-12-31). -/
def samplePrDec31 : GqlPR :=
  { samplePr with number := 5, mergedAt := some "2023-12-31T23:59:00Z" }

/-- A pull request in the window touching only `docs/readme.md`. -/
def samplePrDocs : GqlPR :=
  { samplePr with number := 6, files := ["docs/readme.md"] }

end FetchSpecificMergedPrs

namespace FetchSpecificMergedPrs

theorem pyTruthy_of_some {ts : String} (h : ts ≠ "") :
    pyTruthy (some ts) = true := by
  simp [pyTruthy, h]

theorem procNodes_singleton (σ : List String → List String)
    (start_date end_date : String) (included_paths : List String)
    (pr : GqlPR) (ts : String) (hm : pr.mergedAt = some ts) (hts : ts ≠ "") :
    procNodes σ start_date end_date included_paths [pr] =
      if pyStrLt (pySlice10 ts) start_date then ([], 1)
      else if pyStrLt end_date (pySlice10 ts) then ([], 0)
      else if pr.files.any (fun f => matches_included_paths f included_paths) then
        ([mkRecord σ pr], 0)
      else ([], 0) := by
  simp only [procNodes, hm, pyTruthy_of_some hts, if_true, Option.getD_some]

end FetchSpecificMergedPrs

/-- C3: in the GraphQL pipeline a pull request with non-null merge
timestamp passes the date filter iff
`start_date <= merged_at[:10] <= end_date` under lexical string
comparison; a pull request merged at 2023-12-31T23:59:00Z is excluded
from the window 2024-01-01..2024-01-31 and one merged at
2024-01-15T10:00:00Z is included. -/
theorem c3_date_window_filter :
    (∀ (σ : List String → List String) (start_date end_date : String)
        (included_paths : List String) (pr : FetchSpecificMergedPrs.GqlPR) (ts : String),
      pr.mergedAt = some ts → ts ≠ "" →
      pr.files.any (fun f => FetchSpecificMergedPrs.matches_included_paths f included_paths) = true →
      ((FetchSpecificMergedPrs.procNodes σ start_date end_date included_paths [pr]).1 ≠ [] ↔
        (pyStrLe start_date (pySlice10 ts) = true ∧ pyStrLe (pySlice10 ts) end_date = true)))
    ∧ FetchSpecificMergedPrs.procNodes canonOrder "2024-01-01" "2024-01-31" ["*"]
        [FetchSpecificMergedPrs.samplePrDec31] = ([], 1)
    ∧ (FetchSpecificMergedPrs.procNodes canonOrder "2024-01-01" "2024-01-31" ["*"]
        [FetchSpecificMergedPrs.samplePr]).1 =
        [FetchSpecificMergedPrs.mkRecord canonOrder FetchSpecificMergedPrs.samplePr] := by
  refine ⟨?_, by decide, by decide⟩
  intro σ start_date end_date included_paths pr ts hm hts hfiles
  rw [FetchSpecificMergedPrs.procNodes_singleton σ start_date end_date included_paths pr ts hm hts]
  simp only [pyStrLe]
  by_cases h1 : pyStrLt (pySlice10 ts) start_date = true
  · simp [h1]
  · simp only [Bool.not_eq_true] at h1
    by_cases h2 : pyStrLt end_date (pySlice10 ts) = true
    · simp [h1, h2]
    · simp only [Bool.not_eq_true] at h2
      simp [h1, h2, hfiles]

/-- C3 witness: the in-window sample pull request is retained. -/
theorem c3_date_window_filter_witness :
    (FetchSpecificMergedPrs.procNodes canonOrder "2024-01-01" "2024-01-31" ["*"]
        [FetchSpecificMergedPrs.samplePr]).1 ≠ [] :=
  (c3_date_window_filter.1 canonOrder "2024-01-01" "2024-01-31" ["*"]
      FetchSpecificMergedPrs.samplePr "2024-01-15T10:00:00Z" rfl (by decide)
      (by decide)).mpr (by decide)

/-- C4: in the GraphQL pipeline an in-window pull request is retained iff
at least one changed file path matches at least one configured glob
pattern; with patterns `["src/*.go"]`, touching
`["src/main.go", "README.md"]` is retained, touching only
`["docs/readme.md"]` is not. -/
theorem c4_glob_filter :
    (∀ (σ : List String → List String) (start_date end_date : String)
        (patterns : List String) (pr : FetchSpecificMergedPrs.GqlPR) (ts : String),
      pr.mergedAt = some ts → ts ≠ "" →
      pyStrLt (pySlice10 ts) start_date = false →
      pyStrLt end_date (pySlice10 ts) = false →
      ((FetchSpecificMergedPrs.procNodes σ start_date end_date patterns [pr]).1 ≠ [] ↔
        ∃ f ∈ pr.files, ∃ p ∈ patterns, fnmatch f p = true))
    ∧ (FetchSpecificMergedPrs.procNodes canonOrder "2024-01-01" "2024-01-31" ["src/*.go"]
        [FetchSpecificMergedPrs.samplePr]).1 =
        [FetchSpecificMergedPrs.mkRecord canonOrder FetchSpecificMergedPrs.samplePr]
    ∧ FetchSpecificMergedPrs.procNodes canonOrder "2024-01-01" "2024-01-31" ["src/*.go"]
        [FetchSpecificMergedPrs.samplePrDocs] = ([], 0) := by
  refine ⟨?_, by decide, by decide⟩
  intro σ start_date end_date patterns pr ts hm hts h1 h2
  rw [FetchSpecificMergedPrs.procNodes_singleton σ start_date end_date patterns pr ts hm hts]
  simp only [h1, h2, Bool.false_eq_true, if_false]
  by_cases h3 : pr.files.any
      (fun f => FetchSpecificMergedPrs.matches_included_paths f patterns) = true
  · have hex := h3
    rw [List.any_eq_true] at hex
    simp only [h3, if_true]
    constructor
    · intro _
      obtain ⟨f, hf, hmatch⟩ := hex
      rw [FetchSpecificMergedPrs.matches_included_paths, List.any_eq_true] at hmatch
      obtain ⟨p, hp, hfp⟩ := hmatch
      exact ⟨f, hf, p, hp, hfp⟩
    · intro _
      simp
  · simp only [Bool.not_eq_true] at h3
    simp only [h3, Bool.false_eq_true, if_false]
    constructor
    · intro h
      exact absurd rfl h
    · intro ⟨f, hf, p, hp, hfp⟩
      exfalso
      have : pr.files.any (fun f => FetchSpecificMergedPrs.matches_included_paths f patterns) = true := by
        rw [List.any_eq_true]
        refine ⟨f, hf, ?_⟩
        rw [FetchSpecificMergedPrs.matches_included_paths, List.any_eq_true]
        exact ⟨p, hp, hfp⟩
      rw [h3] at this
      exact Bool.false_ne_true this

/-- C4 witness: the pull request touching `src/main.go` is retained for
patterns `["src/*.go"]`. -/
theorem c4_glob_filter_witness :
    (FetchSpecificMergedPrs.procNodes canonOrder "2024-01-01" "2024-01-31" ["src/*.go"]
        [FetchSpecificMergedPrs.samplePr]).1 ≠ [] :=
  (c4_glob_filter.1 canonOrder "2024-01-01" "2024-01-31" ["src/*.go"]
      FetchSpecificMergedPrs.samplePr "2024-01-15T10:00:00Z" rfl (by decide)
      (by decide) (by decide)).mpr
    ⟨"src/main.go", by decide, "src/*.go", by decide, by decide⟩

namespace FetchSpecificMergedPrs

theorem procNodes_all_older (σ : List String → List String)
    (start_date end_date : String) (included_paths : List String) :
    ∀ nodes : List GqlPR,
      (∀ pr ∈ nodes, ∃ ts : String, pr.mergedAt = some ts ∧ ts ≠ "" ∧
        pyStrLt (pySlice10 ts) start_date = true) →
      procNodes σ start_date end_date included_paths nodes = ([], nodes.length)
  | [], _ => rfl
  | pr :: rest, h => by
    obtain ⟨ts, hm, hts, hlt⟩ := h pr (List.mem_cons_self pr rest)
    have ih := procNodes_all_older σ start_date end_date included_paths rest
      (fun q hq => h q (List.mem_cons_of_mem pr hq))
    simp [procNodes, hm, pyTruthy_of_some hts, hlt, ih]

end FetchSpecificMergedPrs

/-- C1: in the GraphQL pipeline, when every node on a fetched page carries
a merge timestamp whose date portion is strictly before `start_date`, the
loop stops after that page — one page is requested, no record is
accumulated, and no later page of the mock sequence is touched — even
when the page reports `hasNextPage = true`. -/
theorem c1_early_termination (σ : List String → List String)
    (start_date end_date : String) (included_paths : List String)
    (page : FetchSpecificMergedPrs.GqlPage)
    (rest : List FetchSpecificMergedPrs.GqlPage)
    (h : ∀ pr ∈ page.nodes, ∃ ts : String,
      pr.mergedAt = some ts ∧ ts ≠ "" ∧ pyStrLt (pySlice10 ts) start_date = true) :
    FetchSpecificMergedPrs.fetch_merged_prs_graphql σ start_date end_date included_paths
      (page :: rest) = ([], 1) := by
  have hp := FetchSpecificMergedPrs.procNodes_all_older σ start_date end_date
    included_paths page.nodes h
  simp [FetchSpecificMergedPrs.fetch_merged_prs_graphql, hp]

namespace FetchSpecificMergedPrs

/-- A page whose only node was merged before the window, reported with
`hasNextPage = true`. -/
def oldPage : GqlPage :=
  { hasNextPage := true
    nodes := [{ samplePr with number := 3, mergedAt := some "2023-11-30T08:00:00Z" }] }

/-- A later page carrying an in-window pull request; under the
early-termination rule it is never requested. -/
def laterInWindowPage : GqlPage :=
  { hasNextPage := false, nodes := [samplePr] }

end FetchSpecificMergedPrs

/-- C1 witness: on a concrete mock sequence whose first page is entirely
older than `start_date` (with `hasNextPage = true`), only that one page is
requested and the in-window pull request waiting on the next page is never
fetched. -/
theorem c1_early_termination_witness :
    FetchSpecificMergedPrs.fetch_merged_prs_graphql canonOrder "2024-01-01" "2024-01-31"
      ["src/*.go"]
      [FetchSpecificMergedPrs.oldPage, FetchSpecificMergedPrs.laterInWindowPage] = ([], 1) :=
  c1_early_termination canonOrder "2024-01-01" "2024-01-31" ["src/*.go"]
    FetchSpecificMergedPrs.oldPage [FetchSpecificMergedPrs.laterInWindowPage]
    (by
      intro pr hpr
      simp only [FetchSpecificMergedPrs.oldPage, List.mem_singleton] at hpr
      subst hpr
      exact ⟨"2023-11-30T08:00:00Z", rfl, by decide, by decide⟩)

namespace FetchAllMergedPrs

/-- A successful page response with the given body. -/
def okPage (body : List RestPR) : RestResp := ⟨200, "", body⟩

theorem get_all_cons_ok (b : List RestPR) (hb : b.isEmpty = false)
    (rest : List RestResp) :
    get_all_merged_pull_requests (okPage b :: rest) =
      match get_all_merged_pull_requests rest with
      | (.error msg, n) => (.error msg, n + 1)
      | (.ok tail, n) =>
        (.ok (b.filter (fun pr => pyTruthy pr.merged_at) ++ tail), n + 1) := by
  simp [get_all_merged_pull_requests, okPage, hb]

theorem get_all_ok_run (pre : List (List RestPR)) (junk : List RestResp)
    (hpre : ∀ b ∈ pre, b ≠ []) :
    get_all_merged_pull_requests (pre.map okPage ++ okPage [] :: junk) =
      (.ok ((pre.map (fun b => b.filter (fun pr => pyTruthy pr.merged_at))).flatten),
       pre.length + 1) := by
  induction pre with
  | nil => simp [get_all_merged_pull_requests, okPage]
  | cons b bs ih =>
    have hb : b ≠ [] := hpre b (List.mem_cons_self b bs)
    have hbe : b.isEmpty = false := by
      cases b with
      | nil => exact absurd rfl hb
      | cons x xs => rfl
    have ih2 := ih (fun q hq => hpre q (List.mem_cons_of_mem b hq))
    rw [List.map_cons, List.cons_append, get_all_cons_ok b hbe, ih2]
    simp

theorem get_all_error_run (pre : List (List RestPR)) (junk : List RestResp)
    (e : RestResp) (hpre : ∀ b ∈ pre, b ≠ []) (he : e.status ≠ 200) :
    get_all_merged_pull_requests (pre.map okPage ++ e :: junk) =
      (.error ("GitHub API error: " ++ toString e.status ++ " - " ++ e.text),
       pre.length + 1) := by
  induction pre with
  | nil =>
    have hne : (e.status == 200) = false := by simp [he]
    simp [get_all_merged_pull_requests, hne]
  | cons b bs ih =>
    have hb : b ≠ [] := hpre b (List.mem_cons_self b bs)
    have hbe : b.isEmpty = false := by
      cases b with
      | nil => exact absurd rfl hb
      | cons x xs => rfl
    have ih2 := ih (fun q hq => hpre q (List.mem_cons_of_mem b hq))
    rw [List.map_cons, List.cons_append, get_all_cons_ok b hbe, ih2]
    simp

end FetchAllMergedPrs

/-- C6: the REST fetcher accumulates exactly the items with a truthy merge
timestamp, page by page in API order; it requests pages in order and stops
at the first empty page (later responses are never requested), and a
non-200 page status makes the run fail with the API-error diagnostic. -/
theorem c6_rest_fetcher (pre : List (List FetchAllMergedPrs.RestPR))
    (junk : List FetchAllMergedPrs.RestResp) (e : FetchAllMergedPrs.RestResp)
    (hpre : ∀ b ∈ pre, b ≠ []) :
    (FetchAllMergedPrs.get_all_merged_pull_requests
        (pre.map FetchAllMergedPrs.okPage ++ FetchAllMergedPrs.okPage [] :: junk) =
      (.ok ((pre.map (fun b => b.filter (fun pr => pyTruthy pr.merged_at))).flatten),
       pre.length + 1))
    ∧ (e.status ≠ 200 →
      FetchAllMergedPrs.get_all_merged_pull_requests
          (pre.map FetchAllMergedPrs.okPage ++ e :: junk) =
        (.error ("GitHub API error: " ++ toString e.status ++ " - " ++ e.text),
         pre.length + 1)) :=
  ⟨FetchAllMergedPrs.get_all_ok_run pre junk hpre,
   fun he => FetchAllMergedPrs.get_all_error_run pre junk e hpre he⟩

namespace FetchAllMergedPrs

/-- A merged and an unmerged closed pull request for concrete scenarios. -/
def mergedPr : RestPR :=
  { number := 1, html_url := "https://example.com/pr/1", title := some "Fix bug"
    user_login := some "alice", merge_commit_sha := some "deadbeef"
    merged_at := some "2024-01-02T03:04:05Z" }

/-- A closed but unmerged pull request (`merged_at` null). -/
def unmergedPr : RestPR :=
  { number := 2, html_url := "https://example.com/pr/2", title := some "Wip"
    user_login := some "bob", merge_commit_sha := none, merged_at := none }

end FetchAllMergedPrs

/-- C6 witness: a two-page mock run (one page with a merged and an
unmerged item, then the empty terminator page, then a junk page) keeps
exactly the merged item and requests exactly two pages. -/
theorem c6_rest_fetcher_witness :
    FetchAllMergedPrs.get_all_merged_pull_requests
        ([[FetchAllMergedPrs.mergedPr, FetchAllMergedPrs.unmergedPr]].map
            FetchAllMergedPrs.okPage
          ++ FetchAllMergedPrs.okPage [] :: [FetchAllMergedPrs.okPage [FetchAllMergedPrs.unmergedPr]]) =
      (.ok [FetchAllMergedPrs.mergedPr], 2) := by
  have h := (c6_rest_fetcher [[FetchAllMergedPrs.mergedPr, FetchAllMergedPrs.unmergedPr]]
    [FetchAllMergedPrs.okPage [FetchAllMergedPrs.unmergedPr]] (FetchAllMergedPrs.okPage [])
    (by intro b hb; simp at hb; subst hb; decide)).1
  rw [h]
  rfl

theorem validOrder_mem {σ : List String → List String} (h : validOrder σ)
    (xs : List String) (a : String) : a ∈ σ xs ↔ a ∈ xs := by
  rw [(h xs).mem_iff, List.mem_dedup]

theorem validOrder_nodup {σ : List String → List String} (h : validOrder σ)
    (xs : List String) : (σ xs).Nodup :=
  (h xs).nodup_iff.mpr (List.nodup_dedup xs)

/-- C7: in both pipelines the approver logins of a record are
deduplicated — any set enumeration yields each distinct login exactly
once, so repeated APPROVED reviews by one login contribute one entry —
while the modified-file paths are passed through with the order and
multiplicity of the API response. -/
theorem c7_approver_dedup :
    (∀ (σ : List String → List String) (pr : FetchSpecificMergedPrs.GqlPR),
      validOrder σ →
      (σ (FetchSpecificMergedPrs.approver_logins pr)).Nodup
      ∧ (∀ a, a ∈ σ (FetchSpecificMergedPrs.approver_logins pr) ↔
          some a ∈ pr.reviews.map FetchSpecificMergedPrs.GqlReview.author)
      ∧ (FetchSpecificMergedPrs.mkRecord σ pr).approved_by =
          joinComma (σ (FetchSpecificMergedPrs.approver_logins pr))
      ∧ (FetchSpecificMergedPrs.mkRecord σ pr).files = joinComma pr.files)
    ∧ (∀ (σ : List String → List String) (env : FetchAllMergedPrs.Enrich)
        (n : Nat) (reviews : List FetchAllMergedPrs.RestReview),
      validOrder σ → env.reviewsResp n = .ok reviews →
      (FetchAllMergedPrs.get_approved_by σ env n).Nodup
      ∧ ∀ a, a ∈ FetchAllMergedPrs.get_approved_by σ env n ↔
          ∃ rv ∈ reviews, rv.state = some "APPROVED" ∧ rv.user_login = a)
    ∧ (∀ (env : FetchAllMergedPrs.Enrich) (n : Nat)
        (files : List FetchAllMergedPrs.RestFile),
      env.filesResp n = .ok files →
      FetchAllMergedPrs.get_modified_files env n =
        files.map FetchAllMergedPrs.RestFile.filename) := by
  refine ⟨?_, ?_, ?_⟩
  · intro σ pr hσ
    refine ⟨validOrder_nodup hσ _, ?_, rfl, rfl⟩
    intro a
    rw [validOrder_mem hσ, FetchSpecificMergedPrs.approver_logins,
      List.mem_filterMap, List.mem_map]
  · intro σ env n reviews hσ hresp
    have hget : FetchAllMergedPrs.get_approved_by σ env n =
        σ ((reviews.filter
            (fun review => review.state == some "APPROVED")).map
              FetchAllMergedPrs.RestReview.user_login) := by
      rw [FetchAllMergedPrs.get_approved_by, hresp]
    refine ⟨by rw [hget]; exact validOrder_nodup hσ _, ?_⟩
    intro a
    rw [hget, validOrder_mem hσ, List.mem_map]
    constructor
    · intro ⟨rv, hrv, heq⟩
      rw [List.mem_filter] at hrv
      exact ⟨rv, hrv.1, by simpa using hrv.2, heq⟩
    · intro ⟨rv, hrv, hst, heq⟩
      exact ⟨rv, List.mem_filter.mpr ⟨hrv, by simp [hst]⟩, heq⟩
  · intro env n files hresp
    rw [FetchAllMergedPrs.get_modified_files, hresp]

/-- C7 witness: on the sample pull request, whose reviews are two APPROVED
reviews by alice and one by bob, any concrete enumeration lists alice
exactly once. -/
theorem c7_approver_dedup_witness :
    (canonOrder (FetchSpecificMergedPrs.approver_logins
        FetchSpecificMergedPrs.samplePr)).Nodup
    ∧ "alice" ∈ canonOrder (FetchSpecificMergedPrs.approver_logins
        FetchSpecificMergedPrs.samplePr) :=
  ⟨(c7_approver_dedup.1 canonOrder FetchSpecificMergedPrs.samplePr canonOrder_valid).1,
   ((c7_approver_dedup.1 canonOrder FetchSpecificMergedPrs.samplePr
       canonOrder_valid).2.1 "alice").mpr (by decide)⟩

/-- C10: in the GraphQL pipeline an APPROVED review whose author is null
is silently dropped from the approver set — the record is unchanged and
the page is processed exactly as without that review — and the approvers
of the record are exactly the non-null review authors. -/
theorem c10_null_review_author (σ : List String → List String)
    (start_date end_date : String) (included_paths : List String)
    (pr : FetchSpecificMergedPrs.GqlPR) (rv : FetchSpecificMergedPrs.GqlReview)
    (hr : rv.author = none) :
    FetchSpecificMergedPrs.mkRecord σ { pr with reviews := rv :: pr.reviews } =
      FetchSpecificMergedPrs.mkRecord σ pr
    ∧ FetchSpecificMergedPrs.procNodes σ start_date end_date included_paths
        [{ pr with reviews := rv :: pr.reviews }] =
      FetchSpecificMergedPrs.procNodes σ start_date end_date included_paths [pr]
    ∧ (validOrder σ → ∀ a,
        a ∈ σ (FetchSpecificMergedPrs.approver_logins
          { pr with reviews := rv :: pr.reviews }) ↔
        some a ∈ pr.reviews.map FetchSpecificMergedPrs.GqlReview.author) := by
  have hl : FetchSpecificMergedPrs.approver_logins
      { pr with reviews := rv :: pr.reviews } =
      FetchSpecificMergedPrs.approver_logins pr := by
    simp [FetchSpecificMergedPrs.approver_logins, List.filterMap_cons, hr]
  have hmk : FetchSpecificMergedPrs.mkRecord σ { pr with reviews := rv :: pr.reviews } =
      FetchSpecificMergedPrs.mkRecord σ pr := by
    simp [FetchSpecificMergedPrs.mkRecord, hl]
  refine ⟨hmk, ?_, ?_⟩
  · simp [FetchSpecificMergedPrs.procNodes, hmk]
  · intro hσ a
    rw [hl, validOrder_mem hσ, FetchSpecificMergedPrs.approver_logins,
      List.mem_filterMap, List.mem_map]

/-- C10 witness: prepending a null-author APPROVED review to the sample
pull request leaves its record unchanged. -/
theorem c10_null_review_author_witness :
    FetchSpecificMergedPrs.mkRecord canonOrder
      { FetchSpecificMergedPrs.samplePr with
          reviews := ⟨none⟩ :: FetchSpecificMergedPrs.samplePr.reviews } =
    FetchSpecificMergedPrs.mkRecord canonOrder FetchSpecificMergedPrs.samplePr :=
  (c10_null_review_author canonOrder "2024-01-01" "2024-01-31" ["src/*.go"]
    FetchSpecificMergedPrs.samplePr ⟨none⟩ rfl).1

theorem string_data_ne_nil {f : String} (h : f ≠ "") : f.data ≠ [] := by
  intro hd
  apply h
  cases f with
  | mk data =>
    simp only at hd
    subst hd
    rfl

/-- The empty pattern matches no non-empty path. -/
theorem matches_empty_pattern {f : String} (h : f ≠ "") :
    FetchSpecificMergedPrs.matches_included_paths f [""] = false := by
  have hd : f.data ≠ [] := string_data_ne_nil h
  simp only [FetchSpecificMergedPrs.matches_included_paths, List.any_cons,
    List.any_nil, Bool.or_false, fnmatch]
  cases hf : f.data with
  | nil => exact absurd hf hd
  | cons c s => simp [globMatch, hf]

namespace FetchSpecificMergedPrs

theorem procNodes_no_match (σ : List String → List String)
    (start_date end_date : String) :
    ∀ nodes : List GqlPR,
      (∀ pr ∈ nodes, ∀ f ∈ pr.files, f ≠ "") →
      (procNodes σ start_date end_date [""] nodes).1 = []
  | [], _ => rfl
  | pr :: rest, h => by
    have ih := procNodes_no_match σ start_date end_date rest
      (fun q hq => h q (List.mem_cons_of_mem pr hq))
    have hany : pr.files.any (fun f => matches_included_paths f [""]) = false := by
      rw [List.any_eq_false]
      intro f hf
      simp [matches_empty_pattern (h pr (List.mem_cons_self pr rest) f hf)]
    simp only [procNodes]
    split
    · split
      · simpa using ih
      · split
        · exact ih
        · split
          · rename_i hcond
            rw [hany] at hcond
            cases hcond
          · exact ih
    · exact ih

theorem fetch_no_match (σ : List String → List String)
    (start_date end_date : String) :
    ∀ pages : List GqlPage,
      (∀ page ∈ pages, ∀ pr ∈ page.nodes, ∀ f ∈ pr.files, f ≠ "") →
      (fetch_merged_prs_graphql σ start_date end_date [""] pages).1 = []
  | [], _ => rfl
  | page :: rest, h => by
    have hpage := procNodes_no_match σ start_date end_date page.nodes
      (h page (List.mem_cons_self page rest))
    have ih := fetch_no_match σ start_date end_date rest
      (fun q hq => h q (List.mem_cons_of_mem page hq))
    simp only [fetch_merged_prs_graphql]
    split
    · simp [hpage, ih]
    · simp [hpage]

end FetchSpecificMergedPrs

/-- C9: in the GraphQL pipeline a missing (or empty) `included_paths` key
does not fail the run: the pattern list becomes `[""]`, which matches no
non-empty path, so every pull request is excluded and the run reports an
empty result. -/
theorem c9_missing_included_paths (σ : List String → List String)
    (cfg : String → Option String) (pages : List FetchSpecificMergedPrs.GqlPage)
    (hik : cfg "included_paths" = none ∨ cfg "included_paths" = some "")
    (h1 : pyTruthy (cfg "github_token") = true)
    (h2 : pyTruthy (cfg "repo_owner") = true)
    (h3 : pyTruthy (cfg "repo_name") = true)
    (h4 : pyTruthy (cfg "start_date") = true)
    (h5 : pyTruthy (cfg "end_date") = true)
    (hfiles : ∀ page ∈ pages, ∀ pr ∈ page.nodes, ∀ f ∈ pr.files, f ≠ "") :
    (∃ c, FetchSpecificMergedPrs.load_config cfg = .ok c ∧ c.included_paths = [""])
    ∧ (FetchSpecificMergedPrs.main σ cfg pages).outcome = .noRecords := by
  have hikd : (cfg "included_paths").getD "" = "" := by
    rcases hik with h | h <;> rw [h] <;> rfl
  have hcfg : FetchSpecificMergedPrs.load_config cfg =
      .ok { owner := (cfg "repo_owner").getD ""
            repo := (cfg "repo_name").getD ""
            included_paths := [""]
            start_date := (cfg "start_date").getD ""
            end_date := (cfg "end_date").getD "" } := by
    rw [FetchSpecificMergedPrs.load_config]
    rw [h1, h2, h3, h4, h5, hikd]
    rfl
  refine ⟨⟨_, hcfg, rfl⟩, ?_⟩
  rw [FetchSpecificMergedPrs.main, hcfg]
  have hempty := FetchSpecificMergedPrs.fetch_no_match σ
    ((cfg "start_date").getD "") ((cfg "end_date").getD "") pages hfiles
  simp [hempty]

/-- A concrete configuration file carrying every key except
`included_paths`. -/
def cfgNoIncludedPaths : String → Option String := fun k =>
  if k = "github_token" then some "token123"
  else if k = "repo_owner" then some "owner"
  else if k = "repo_name" then some "repo"
  else if k = "start_date" then some "2024-01-01"
  else if k = "end_date" then some "2024-01-31"
  else none

/-- C9 witness: a concrete configuration without `included_paths`, run
over a page carrying an otherwise-matching merged pull request, loads
successfully and reports no records. -/
theorem c9_missing_included_paths_witness :
    (∃ c, FetchSpecificMergedPrs.load_config cfgNoIncludedPaths = .ok c ∧
      c.included_paths = [""])
    ∧ (FetchSpecificMergedPrs.main canonOrder cfgNoIncludedPaths
        [⟨false, [FetchSpecificMergedPrs.samplePr]⟩]).outcome = .noRecords :=
  c9_missing_included_paths canonOrder cfgNoIncludedPaths
    [⟨false, [FetchSpecificMergedPrs.samplePr]⟩]
    (Or.inl rfl) rfl rfl rfl rfl rfl (by decide)

theorem isEmpty_false_of_ne_nil {α : Type} {l : List α} (h : l ≠ []) :
    l.isEmpty = false := by
  cases l with
  | nil => exact absurd rfl h
  | cons a t => rfl

/-- C8: in both pipelines, when the finalized record sequence is empty no
CSV content is produced (the run reports `noRecords` instead), and when it
is non-empty the run produces exactly the header row followed by one row
per record. -/
theorem c8_csv_written_iff_nonempty :
    (∀ (σ : List String → List String) (cfg : String → Option String)
        (pages : List FetchSpecificMergedPrs.GqlPage)
        (c : FetchSpecificMergedPrs.Config),
      FetchSpecificMergedPrs.load_config cfg = .ok c →
      ((FetchSpecificMergedPrs.fetch_merged_prs_graphql σ c.start_date c.end_date
          c.included_paths pages).1 = [] →
        (FetchSpecificMergedPrs.main σ cfg pages).outcome = .noRecords)
      ∧ ((FetchSpecificMergedPrs.fetch_merged_prs_graphql σ c.start_date c.end_date
          c.included_paths pages).1 ≠ [] →
        (FetchSpecificMergedPrs.main σ cfg pages).outcome =
          .wroteCsv (FetchSpecificMergedPrs.write_to_csv
            (FetchSpecificMergedPrs.fetch_merged_prs_graphql σ c.start_date c.end_date
              c.included_paths pages).1)))
    ∧ (∀ (σ : List String → List String) (cfg : String → Option String)
        (pages : List FetchAllMergedPrs.RestResp) (env : FetchAllMergedPrs.Enrich)
        (c : FetchAllMergedPrs.Config) (prs : List FetchAllMergedPrs.RestPR) (n : Nat),
      FetchAllMergedPrs.load_config cfg = .ok c →
      FetchAllMergedPrs.get_all_merged_pull_requests pages = (.ok prs, n) →
      ((prs = [] → (FetchAllMergedPrs.main σ cfg pages env).outcome = .noRecords)
      ∧ (prs ≠ [] → (FetchAllMergedPrs.main σ cfg pages env).outcome =
          .wroteCsv (FetchAllMergedPrs.write_to_csv σ env prs)))) := by
  constructor
  · intro σ cfg pages c hcfg
    constructor
    · intro hempty
      rw [FetchSpecificMergedPrs.main, hcfg]
      simp [hempty]
    · intro hne
      rw [FetchSpecificMergedPrs.main, hcfg]
      simp [isEmpty_false_of_ne_nil hne]
  · intro σ cfg pages env c prs n hcfg hget
    constructor
    · intro hempty
      rw [FetchAllMergedPrs.main, hcfg, hget]
      simp [hempty]
    · intro hne
      rw [FetchAllMergedPrs.main, hcfg, hget]
      simp [isEmpty_false_of_ne_nil hne]

/-- A complete concrete configuration for the GraphQL pipeline. -/
def cfgFull : String → Option String := fun k =>
  if k = "github_token" then some "token123"
  else if k = "repo_owner" then some "owner"
  else if k = "repo_name" then some "repo"
  else if k = "included_paths" then some "src/*.go"
  else if k = "start_date" then some "2024-01-01"
  else if k = "end_date" then some "2024-01-31"
  else none

/-- C8 witness: with a complete configuration and an exhausted mock
sequence (no pages, hence no records), the GraphQL pipeline reports
`noRecords` and writes nothing. -/
theorem c8_csv_written_iff_nonempty_witness :
    (FetchSpecificMergedPrs.main canonOrder cfgFull []).outcome = .noRecords :=
  ((c8_csv_written_iff_nonempty.1 canonOrder cfgFull []
      ⟨"owner", "repo", ["src/*.go"], "2024-01-01", "2024-01-31"⟩ rfl).1) rfl

/-- C5 counterexample: the claim says a missing `included_paths` key makes
the filtered pipeline exit fatally before any network request; in the
code `included_paths` falls back to `""` and is not part of the presence
check, so with every other key present the run loads its configuration,
issues a page request and completes non-fatally. -/
theorem c5_cex_included_paths_not_checked :
    cfgNoIncludedPaths "included_paths" = none
    ∧ FetchSpecificMergedPrs.load_config cfgNoIncludedPaths =
        .ok { owner := "owner", repo := "repo", included_paths := [""]
              start_date := "2024-01-01", end_date := "2024-01-31" }
    ∧ (FetchSpecificMergedPrs.main canonOrder cfgNoIncludedPaths
        [⟨false, []⟩]).pagesRequested = 1
    ∧ (FetchSpecificMergedPrs.main canonOrder cfgNoIncludedPaths
        [⟨false, []⟩]).outcome = .noRecords :=
  ⟨rfl, rfl, rfl, rfl⟩

/-- C5 (amended): for each pipeline, if any of the configuration keys the
code actually checks is missing or empty — `github_token`, `repo_owner`,
`repo_name`, plus `start_date` and `end_date` for the filtered pipeline,
but NOT `included_paths` — the run terminates fatally with the
configuration diagnostic and zero pages requested. -/
theorem c5_missing_config_fatal :
    (∀ (σ : List String → List String) (cfg : String → Option String)
        (pages : List FetchSpecificMergedPrs.GqlPage),
      (pyTruthy (cfg "github_token") = false ∨ pyTruthy (cfg "repo_owner") = false
        ∨ pyTruthy (cfg "repo_name") = false ∨ pyTruthy (cfg "start_date") = false
        ∨ pyTruthy (cfg "end_date") = false) →
      FetchSpecificMergedPrs.main σ cfg pages =
        ⟨.fatal "One or more required config fields are missing in config.properties", 0⟩)
    ∧ (∀ (σ : List String → List String) (cfg : String → Option String)
        (pages : List FetchAllMergedPrs.RestResp) (env : FetchAllMergedPrs.Enrich),
      (pyTruthy (cfg "github_token") = false ∨ pyTruthy (cfg "repo_owner") = false
        ∨ pyTruthy (cfg "repo_name") = false) →
      FetchAllMergedPrs.main σ cfg pages env =
        ⟨.fatal "One or more required config fields are missing in config.properties", 0⟩) := by
  constructor
  · intro σ cfg pages h
    have hfail : FetchSpecificMergedPrs.load_config cfg =
        .error "One or more required config fields are missing in config.properties" := by
      rw [FetchSpecificMergedPrs.load_config]
      rcases h with h | h | h | h | h <;> simp [h]
    rw [FetchSpecificMergedPrs.main, hfail]
  · intro σ cfg pages env h
    have hfail : FetchAllMergedPrs.load_config cfg =
        .error "One or more required config fields are missing in config.properties" := by
      rw [FetchAllMergedPrs.load_config]
      rcases h with h | h | h <;> simp [h]
    rw [FetchAllMergedPrs.main, hfail]

/-- C5 witness: a fully empty configuration file makes both pipelines
exit fatally before requesting any page. -/
theorem c5_missing_config_fatal_witness :
    FetchSpecificMergedPrs.main canonOrder (fun _ => none)
        [⟨true, [FetchSpecificMergedPrs.samplePr]⟩] =
      ⟨.fatal "One or more required config fields are missing in config.properties", 0⟩
    ∧ FetchAllMergedPrs.main canonOrder (fun _ => none)
        [FetchAllMergedPrs.okPage [FetchAllMergedPrs.mergedPr]]
        ⟨fun _ => .error (), fun _ => .error (), fun _ => .error ()⟩ =
      ⟨.fatal "One or more required config fields are missing in config.properties", 0⟩ :=
  ⟨c5_missing_config_fatal.1 canonOrder (fun _ => none)
      [⟨true, [FetchSpecificMergedPrs.samplePr]⟩] (Or.inl rfl),
   c5_missing_config_fatal.2 canonOrder (fun _ => none)
      [FetchAllMergedPrs.okPage [FetchAllMergedPrs.mergedPr]]
      ⟨fun _ => .error (), fun _ => .error (), fun _ => .error ()⟩ (Or.inl rfl)⟩

/-- Two CSV rows are equal up to the order of the names inside the
comma-joined `approved_by` column (column 8 of 9): every other column is
shared verbatim, and the approver columns join two lists that are
permutations of each other. -/
def rowEquiv (r s : List String) : Prop :=
  ∃ u n t a m sha ma f : String, ∃ l1 l2 : List String, l1.Perm l2 ∧
    r = [u, n, t, a, m, sha, ma, joinComma l1, f] ∧
    s = [u, n, t, a, m, sha, ma, joinComma l2, f]

namespace FetchSpecificMergedPrs

/-- Two in-memory records are equal up to the order of the names joined
into `approved_by`. -/
def recEquiv (r s : GqlRecord) : Prop :=
  ∃ l1 l2 : List String, l1.Perm l2 ∧
    r.approved_by = joinComma l1 ∧ s.approved_by = joinComma l2 ∧
    r.url = s.url ∧ r.number = s.number ∧ r.title = s.title ∧
    r.author = s.author ∧ r.merged_by = s.merged_by ∧
    r.merge_commit_sha = s.merge_commit_sha ∧ r.merged_at = s.merged_at ∧
    r.files = s.files

theorem recEquiv_csvRow {r s : GqlRecord} (h : recEquiv r s) :
    rowEquiv (csvRow r) (csvRow s) := by
  obtain ⟨l1, l2, hp, hr, hs, hu, hn, ht, ha, hm, hsha, hma, hf⟩ := h
  exact ⟨s.url, toString s.number, s.title, s.author, s.merged_by,
    s.merge_commit_sha, s.merged_at, s.files, l1, l2, hp,
    by simp [csvRow, hr, hu, hn, ht, ha, hm, hsha, hma, hf],
    by simp [csvRow, hs]⟩

theorem mkRecord_equiv {σ1 σ2 : List String → List String}
    (h1 : validOrder σ1) (h2 : validOrder σ2) (pr : GqlPR) :
    recEquiv (mkRecord σ1 pr) (mkRecord σ2 pr) :=
  ⟨σ1 (approver_logins pr), σ2 (approver_logins pr),
    (h1 _).trans (h2 _).symm, rfl, rfl, rfl, rfl, rfl, rfl, rfl, rfl, rfl, rfl⟩

theorem procNodes_equiv {σ1 σ2 : List String → List String}
    (h1 : validOrder σ1) (h2 : validOrder σ2)
    (start_date end_date : String) (included_paths : List String) :
    ∀ nodes : List GqlPR,
      List.Forall₂ recEquiv
        (procNodes σ1 start_date end_date included_paths nodes).1
        (procNodes σ2 start_date end_date included_paths nodes).1
      ∧ (procNodes σ1 start_date end_date included_paths nodes).2 =
          (procNodes σ2 start_date end_date included_paths nodes).2
  | [] => ⟨.nil, rfl⟩
  | pr :: rest => by
    have ih := procNodes_equiv h1 h2 start_date end_date included_paths rest
    simp only [procNodes]
    by_cases c1 : pyTruthy pr.mergedAt = true
    · simp only [c1, if_true]
      by_cases c2 : pyStrLt (pySlice10 (pr.mergedAt.getD "")) start_date = true
      · simpa [c2] using ⟨ih.1, by rw [ih.2]⟩
      · simp only [Bool.not_eq_true] at c2
        by_cases c3 : pyStrLt end_date (pySlice10 (pr.mergedAt.getD "")) = true
        · simpa [c2, c3] using ih
        · simp only [Bool.not_eq_true] at c3
          by_cases c4 : pr.files.any
              (fun f => matches_included_paths f included_paths) = true
          · simpa [c2, c3, c4] using
              ⟨⟨mkRecord_equiv h1 h2 pr, ih.1⟩, ih.2⟩
          · simp only [Bool.not_eq_true] at c4
            simpa [c2, c3, c4] using ih
    · simp only [Bool.not_eq_true] at c1
      simpa [c1] using ih

theorem fetch_equiv {σ1 σ2 : List String → List String}
    (h1 : validOrder σ1) (h2 : validOrder σ2)
    (start_date end_date : String) (included_paths : List String) :
    ∀ pages : List GqlPage,
      List.Forall₂ recEquiv
        (fetch_merged_prs_graphql σ1 start_date end_date included_paths pages).1
        (fetch_merged_prs_graphql σ2 start_date end_date included_paths pages).1
      ∧ (fetch_merged_prs_graphql σ1 start_date end_date included_paths pages).2 =
          (fetch_merged_prs_graphql σ2 start_date end_date included_paths pages).2
  | [] => ⟨.nil, rfl⟩
  | page :: rest => by
    have ihp := procNodes_equiv h1 h2 start_date end_date included_paths page.nodes
    have ih := fetch_equiv h1 h2 start_date end_date included_paths rest
    simp only [fetch_merged_prs_graphql, ← ihp.2]
    by_cases c : (page.hasNextPage
        && !((procNodes σ1 start_date end_date included_paths page.nodes).2
              == page.nodes.length)) = true
    · simpa [c] using ⟨List.rel_append ihp.1 ih.1, by rw [ih.2]⟩
    · simp only [Bool.not_eq_true] at c
      simpa [c] using ihp.1

theorem header_rowEquiv : rowEquiv csvHeader csvHeader :=
  ⟨"PR URL", "PR Number", "Title", "Author", "Merged By", "Merge Commit SHA",
   "Merged At", "Modified Files", ["Approved By"], ["Approved By"],
   List.Perm.refl _, by decide, by decide⟩

theorem forall₂_rowEquiv_map {l m : List GqlRecord}
    (h : List.Forall₂ recEquiv l m) :
    List.Forall₂ rowEquiv (l.map csvRow) (m.map csvRow) := by
  induction h with
  | nil => exact .nil
  | cons ha _ ih => exact .cons (recEquiv_csvRow ha) ih

end FetchSpecificMergedPrs

namespace FetchAllMergedPrs

theorem csvRow_equiv {σ1 σ2 : List String → List String}
    (h1 : validOrder σ1) (h2 : validOrder σ2) (env : Enrich) (pr : RestPR) :
    rowEquiv (csvRow σ1 env pr) (csvRow σ2 env pr) := by
  have hperm : (get_approved_by σ1 env pr.number).Perm
      (get_approved_by σ2 env pr.number) := by
    rw [get_approved_by, get_approved_by]
    cases env.reviewsResp pr.number with
    | error e => exact List.Perm.refl _
    | ok reviews => exact (h1 _).trans (h2 _).symm
  exact ⟨pr.html_url, toString pr.number, pr.title.getD "N/A",
    pr.user_login.getD "N/A", get_merged_by_user env pr.number,
    pr.merge_commit_sha.getD "N/A", pr.merged_at.getD "N/A",
    joinComma (get_modified_files env pr.number),
    get_approved_by σ1 env pr.number, get_approved_by σ2 env pr.number,
    hperm, rfl, rfl⟩

theorem write_to_csv_equiv {σ1 σ2 : List String → List String}
    (h1 : validOrder σ1) (h2 : validOrder σ2) (env : Enrich) :
    ∀ prs : List RestPR,
      List.Forall₂ rowEquiv (write_to_csv σ1 env prs) (write_to_csv σ2 env prs)
  | [] => .cons FetchSpecificMergedPrs.header_rowEquiv .nil
  | pr :: rest => by
    have ih := write_to_csv_equiv h1 h2 env rest
    rw [write_to_csv] at ih ⊢
    cases ih with
    | cons hh _ =>
      exact .cons hh (by
        rw [List.map_cons]
        exact .cons (csvRow_equiv h1 h2 env pr)
          (by
            have := write_to_csv_equiv h1 h2 env rest
            rw [write_to_csv] at this
            cases this with
            | cons _ ht => exact ht))

end FetchAllMergedPrs

/-- C2 (amended): two runs of either pipeline with the same configuration
against the same mock responses produce CSV files with the same rows in
the same order, identical in every column except that the comma-joined
`approved_by` column of a row may list the same set of approver names in
a different order (the order of Python's set enumeration is
process-dependent). -/
theorem c2_deterministic_up_to_set_order (σ1 σ2 : List String → List String)
    (h1 : validOrder σ1) (h2 : validOrder σ2) :
    (∀ (start_date end_date : String) (included_paths : List String)
        (pages : List FetchSpecificMergedPrs.GqlPage),
      List.Forall₂ rowEquiv
        (FetchSpecificMergedPrs.write_to_csv
          (FetchSpecificMergedPrs.fetch_merged_prs_graphql σ1 start_date end_date
            included_paths pages).1)
        (FetchSpecificMergedPrs.write_to_csv
          (FetchSpecificMergedPrs.fetch_merged_prs_graphql σ2 start_date end_date
            included_paths pages).1))
    ∧ (∀ (env : FetchAllMergedPrs.Enrich) (prs : List FetchAllMergedPrs.RestPR),
      List.Forall₂ rowEquiv
        (FetchAllMergedPrs.write_to_csv σ1 env prs)
        (FetchAllMergedPrs.write_to_csv σ2 env prs)) := by
  constructor
  · intro start_date end_date included_paths pages
    rw [FetchSpecificMergedPrs.write_to_csv, FetchSpecificMergedPrs.write_to_csv]
    exact .cons FetchSpecificMergedPrs.header_rowEquiv
      (FetchSpecificMergedPrs.forall₂_rowEquiv_map
        (FetchSpecificMergedPrs.fetch_equiv h1 h2 start_date end_date
          included_paths pages).1)
  · intro env prs
    exact FetchAllMergedPrs.write_to_csv_equiv h1 h2 env prs

/-- C2 counterexample: the claim promises byte-identical rows including
the order of names inside `approved_by`; two valid set-enumeration
orders (two hash seeds) yield different CSV rows from the same mock
responses and configuration — `"alice, bob"` versus `"bob, alice"`. -/
theorem c2_cex_set_order_leaks :
    validOrder canonOrder ∧ validOrder revOrder ∧
    FetchSpecificMergedPrs.write_to_csv
        (FetchSpecificMergedPrs.fetch_merged_prs_graphql canonOrder "2024-01-01"
          "2024-01-31" ["src/*.go"] [⟨false, [FetchSpecificMergedPrs.samplePr]⟩]).1
      ≠ FetchSpecificMergedPrs.write_to_csv
        (FetchSpecificMergedPrs.fetch_merged_prs_graphql revOrder "2024-01-01"
          "2024-01-31" ["src/*.go"] [⟨false, [FetchSpecificMergedPrs.samplePr]⟩]).1 :=
  ⟨canonOrder_valid, revOrder_valid, by decide⟩

/-- C2 witness: on the counterexample input the two runs still agree up
to the order inside `approved_by`. -/
theorem c2_deterministic_up_to_set_order_witness :
    List.Forall₂ rowEquiv
      (FetchSpecificMergedPrs.write_to_csv
        (FetchSpecificMergedPrs.fetch_merged_prs_graphql canonOrder "2024-01-01"
          "2024-01-31" ["src/*.go"] [⟨false, [FetchSpecificMergedPrs.samplePr]⟩]).1)
      (FetchSpecificMergedPrs.write_to_csv
        (FetchSpecificMergedPrs.fetch_merged_prs_graphql revOrder "2024-01-01"
          "2024-01-31" ["src/*.go"] [⟨false, [FetchSpecificMergedPrs.samplePr]⟩]).1) :=
  (c2_deterministic_up_to_set_order canonOrder revOrder canonOrder_valid
    revOrder_valid).1 "2024-01-01" "2024-01-31" ["src/*.go"]
    [⟨false, [FetchSpecificMergedPrs.samplePr]⟩]
